import Mathlib

/-!
Verification of the portfolio valuation and quote-normalization pipeline of
`app.py` (a Streamlit portfolio dashboard built on pandas/numpy/yfinance).

The numeric cells of the pandas DataFrames are IEEE-754 `float64` values.
The claims under study are about missing-value propagation (NaN), division
by zero (±Infinity / NaN), join completeness, aggregation with `skipna`,
and the serialization boundary — none of them are about rounding.  We
therefore embed a float64 cell as `PVal`: either a finite rational, `nan`,
`inf` or `ninf`, with the IEEE special-value rules for the arithmetic
operations the source uses (`+`, `-`, `*`, `/`).  Negative zero is not
modelled (no claim exercises it).  In numpy/pandas, arithmetic on float64
never raises: division by zero produces ±Infinity or NaN (with at most a
`RuntimeWarning`), which is why every embedded operation is total.
-/

/-- One float64 cell: finite rational, NaN (the missing marker of pandas),
+Infinity or -Infinity. -/
inductive PVal where
  | nan
  | inf
  | ninf
  | num (q : ℚ)
  deriving DecidableEq, Repr

namespace PVal

/-- `pd.isna` / `np.isnan`: true exactly on NaN (not on infinities). -/
def isna : PVal → Bool
  | .nan => true
  | _ => false

/-- IEEE float64 addition on the embedded values. -/
def add : PVal → PVal → PVal
  | .nan, _ => .nan
  | _, .nan => .nan
  | .num a, .num b => .num (a + b)
  | .inf, .inf => .inf
  | .inf, .num _ => .inf
  | .num _, .inf => .inf
  | .ninf, .ninf => .ninf
  | .ninf, .num _ => .ninf
  | .num _, .ninf => .ninf
  | .inf, .ninf => .nan
  | .ninf, .inf => .nan

/-- IEEE float64 negation. -/
def neg : PVal → PVal
  | .nan => .nan
  | .inf => .ninf
  | .ninf => .inf
  | .num a => .num (-a)

/-- IEEE float64 subtraction. -/
def sub (a b : PVal) : PVal := a.add b.neg

/-- IEEE float64 multiplication (`inf * 0 = nan`). -/
def mul : PVal → PVal → PVal
  | .nan, _ => .nan
  | _, .nan => .nan
  | .num a, .num b => .num (a * b)
  | .inf, .inf => .inf
  | .inf, .ninf => .ninf
  | .ninf, .inf => .ninf
  | .ninf, .ninf => .inf
  | .inf, .num b => if 0 < b then .inf else if b < 0 then .ninf else .nan
  | .num a, .inf => if 0 < a then .inf else if a < 0 then .ninf else .nan
  | .ninf, .num b => if 0 < b then .ninf else if b < 0 then .inf else .nan
  | .num a, .ninf => if 0 < a then .ninf else if a < 0 then .inf else .nan

/-- IEEE float64 division: a finite nonzero value divided by (positive)
zero is a signed infinity, `0/0` is NaN, `x/inf` is `0`, `inf/inf` is NaN.
(Negative zero is not modelled, so `q / 0` takes the sign of `q`.) -/
def div : PVal → PVal → PVal
  | .nan, _ => .nan
  | _, .nan => .nan
  | .num a, .num b =>
      if b = 0 then (if 0 < a then .inf else if a < 0 then .ninf else .nan)
      else .num (a / b)
  | .num _, .inf => .num 0
  | .num _, .ninf => .num 0
  | .inf, .num b => if b < 0 then .ninf else .inf
  | .ninf, .num b => if b < 0 then .inf else .ninf
  | .inf, .inf => .nan
  | .inf, .ninf => .nan
  | .ninf, .inf => .nan
  | .ninf, .ninf => .nan

/-- Python truthiness `bool(x)` of a float64: false exactly on (positive or
negative) zero; NaN and the infinities are truthy. -/
def truthy : PVal → Bool
  | .num a => a ≠ 0
  | _ => true

/-- Python `x != 0` on a float64: NaN compares unequal to every number, so
this is false exactly on zero. -/
def neZero : PVal → Bool
  | .num a => a ≠ 0
  | _ => true

end PVal

/-- One row of the holdings table (`app.py` columns `Ticker`, `Quantity`,
`CostBasis_AUD`, `Notes`).  `load_holdings` always produces finite numeric
cells, but the editable table may hold NaN, so the numeric fields are
`PVal`. -/
structure Holding where
  ticker : String
  quantity : PVal
  costBasis : PVal
  notes : String
  deriving DecidableEq, Repr

/-- One row of the quote snapshot produced by `fetch_quotes` (`Ticker`,
`Price`, `PrevClose`, `Open`, `Currency`).  A `None`/NaN currency is
`Option.none`. -/
structure Quote where
  ticker : String
  price : PVal
  prevClose : PVal
  openPrice : PVal
  currency : Option String
  deriving DecidableEq, Repr

/-- The all-absent quote a left-merge produces for a holding whose ticker
has no match in the quotes table: every numeric quote field is NaN and the
currency cell is missing. -/
def emptyQuote (tk : String) : Quote :=
  { ticker := tk, price := .nan, prevClose := .nan, openPrice := .nan,
    currency := none }

/-- The rows a left merge produces for one holdings row: one per matching
quotes row (in quotes order), or a single all-NaN pairing when no quotes
row matches. -/
def mergeRow (quotes : List Quote) (h : Holding) : List (Holding × Quote) :=
  match quotes.filter (fun q => q.ticker == h.ticker) with
  | [] => [(h, emptyQuote h.ticker)]
  | ms => ms.map fun q => (h, q)

/-- `holdings.merge(quotes, on="Ticker", how="left")` (app.py line 135):
each holdings row is kept, in order; it is paired with every quotes row
carrying the same ticker (in quotes order), or with the all-NaN quote when
there is none. -/
def merge_quotes (holdings : List Holding) (quotes : List Quote) :
    List (Holding × Quote) :=
  holdings.flatMap (mergeRow quotes)

/-- `get_audusd` (app.py lines 125-132): the `Close` series, after dropna, of the
AUDUSD download, `none` when the download raised.  `float(fx.iloc[-1])`
takes the last element; an empty series makes `iloc[-1]` raise IndexError,
which the `except` turns into the hardcoded fallback `0.67`. -/
def get_audusd : Option (List ℚ) → ℚ
  | none => 67 / 100
  | some closes =>
      match closes.getLast? with
      | none => 67 / 100
      | some x => x

/-- `to_aud` (app.py lines 138-145): NaN price stays NaN; a `"USD"`
currency divides by the pass-wide AUDUSD rate; any other currency
(including a missing one) passes the price through.  The operands are
numpy float64 scalars, so the division is IEEE division and never
raises. -/
def to_aud (price : PVal) (cur : Option String) (audusd : PVal) : PVal :=
  if price.isna then .nan
  else if cur == some "USD" then price.div audusd
  else price

/-- `df["Intraday_%"] = (df["Price"] / df["PrevClose"] - 1.0) * 100.0`
(app.py line 153), elementwise on float64 columns. -/
def intraday_pct (price prevClose : PVal) : PVal :=
  ((price.div prevClose).sub (.num 1)).mul (.num 100)

/-- `fetch_hourly_change` (app.py lines 108-123) applied to the bar closes
it downloaded: `none` models a raised download error; otherwise the list of
`Close` cells of the 6-hour / 1-hour-interval window.  Fewer than 2 bars
gives NaN; `if prev and prev != 0` computes the percent change (NaN `prev`
is truthy and unequal to 0, but then the formula itself is NaN); a zero
`prev` falls through to NaN. -/
def fetch_hourly_change (bars : Option (List PVal)) : PVal :=
  match bars with
  | none => .nan
  | some closes =>
      match closes.reverse with
      | last :: prev :: _ =>
          if prev.truthy && prev.neZero then
            ((last.div prev).sub (.num 1)).mul (.num 100)
          else .nan
      | _ => .nan

/-- One row of the DataFrame `compute_portfolio` returns: the merged
holding and quote fields plus the derived columns. -/
structure Enriched where
  ticker : String
  quantity : PVal
  costBasis : PVal
  notes : String
  price : PVal
  prevClose : PVal
  openPrice : PVal
  currency : Option String
  priceAUD : PVal
  marketValueAUD : PVal
  costAUD : PVal
  unrealisedPnlAUD : PVal
  intradayPct : PVal
  hourPct : PVal
  deriving DecidableEq, Repr

/-- The per-row body of `compute_portfolio` (app.py lines 146-159): the
derived columns for one merged row, given the pass-wide AUDUSD rate and the
already-computed hourly change for the ticker of the row. -/
def enrichRow (h : Holding) (q : Quote) (audusd : ℚ) (hour : PVal) :
    Enriched :=
  let pAUD := to_aud q.price q.currency (.num audusd)
  let mv := pAUD.mul h.quantity
  let cost := h.costBasis.mul h.quantity
  { ticker := h.ticker, quantity := h.quantity, costBasis := h.costBasis,
    notes := h.notes, price := q.price, prevClose := q.prevClose,
    openPrice := q.openPrice, currency := q.currency,
    priceAUD := pAUD, marketValueAUD := mv, costAUD := cost,
    unrealisedPnlAUD := mv.sub cost,
    intradayPct := intraday_pct q.price q.prevClose,
    hourPct := hour }

/-- `compute_portfolio` (app.py lines 134-161): left-merge the quotes into
the holdings, fetch the AUDUSD rate once (line 136), and add the derived
columns row by row.  `fx` is the data the download of `get_audusd` produced and
`bars` gives, per ticker, the bar closes the download of `fetch_hourly_change`
produced (`none` = the download raised). -/
def compute_portfolio (holdings : List Holding) (quotes : List Quote)
    (fx : Option (List ℚ)) (bars : String → Option (List PVal)) :
    List Enriched :=
  let audusd := get_audusd fx
  ( merge_quotes holdings quotes).map fun hq =>
    enrichRow hq.1 hq.2 audusd (fetch_hourly_change (bars hq.1.ticker))

/-- `Series.sum(skipna=True)`: fold the cells, skipping NaN entries
(infinities are summed, they are not NA). -/
def sumSkipNa (l : List PVal) : PVal :=
  l.foldl (fun acc x => if x.isna then acc else acc.add x) (.num 0)

/-- `portfolio["MarketValue_AUD"].sum(skipna=True)` (app.py line 225). -/
def total_mv (p : List Enriched) : PVal :=
  sumSkipNa (p.map (fun r => r.marketValueAUD))

/-- `portfolio["Cost_AUD"].sum(skipna=True)` (app.py line 226). -/
def total_cost (p : List Enriched) : PVal :=
  sumSkipNa (p.map (fun r => r.costAUD))

/-- `(MarketValue_AUD * (Intraday_% / 100)).sum(skipna=True)` (line 228). -/
def intraday_mv (p : List Enriched) : PVal :=
  sumSkipNa (p.map (fun r => r.marketValueAUD.mul (r.intradayPct.div (.num 100))))

/-- `(MarketValue_AUD * (Hour_% / 100)).sum(skipna=True)` (line 229). -/
def hour_mv (p : List Enriched) : PVal :=
  sumSkipNa (p.map (fun r => r.marketValueAUD.mul (r.hourPct.div (.num 100))))

/-! ## Persistence boundary (`load_holdings` / `save_holdings`) -/

/-- A scalar cell of a JSON document the holdings file can contain
(nested arrays/objects inside a cell are not modelled — no claim
exercises them). -/
inductive Cell where
  | cnum (q : ℚ)
  | cstr (s : String)
  | cbool (b : Bool)
  | cnull
  deriving DecidableEq, Repr

/-- Value of a digit string, most significant first. -/
def digitsToNat (cs : List Char) : ℕ :=
  cs.foldl (fun n c => 10 * n + (c.toNat - 48)) 0

/-- Leading and trailing blanks are ignored by numeric parsing. -/
def stripSpaces (cs : List Char) : List Char :=
  ((cs.dropWhile (· = ' ')).reverse.dropWhile (· = ' ')).reverse

/-- Plain decimal literals accepted by `pd.to_numeric` on a string cell:
optional sign, digits, optional fractional part (exponent notation is not
modelled — no claim depends on which strings parse, only on unparsable
ones coercing to NaN). -/
def parseDecimal (s : String) : Option ℚ :=
  let cs := stripSpaces s.toList
  let signAndRest : ℚ × List Char :=
    match cs with
    | '-' :: rest => (-1, rest)
    | '+' :: rest => (1, rest)
    | _ => (1, cs)
  let sign := signAndRest.1
  let body := signAndRest.2
  let intPart := body.takeWhile Char.isDigit
  let rest := body.dropWhile Char.isDigit
  match rest with
  | [] =>
      if intPart.isEmpty then none
      else some (sign * (digitsToNat intPart : ℚ))
  | '.' :: frac =>
      if frac.all Char.isDigit && !(intPart.isEmpty && frac.isEmpty) then
        some (sign * ((digitsToNat intPart : ℚ) +
          (digitsToNat frac : ℚ) / (10 ^ frac.length)))
      else none
  | _ => none

/-- `pd.to_numeric(col, errors="coerce")` on one cell: numbers pass
through, booleans become 0/1, parseable strings become their value, and
everything unparsable (and null / absent) becomes NaN — here `none`. -/
def toNumericCoerce : Cell → Option ℚ
  | .cnum q => some q
  | .cbool b => some (if b then 1 else 0)
  | .cstr s => parseDecimal s
  | .cnull => none

/-- `.astype(str)` on one cell (the exact rendering of non-string cells is
a representation detail no claim depends on). -/
def cellToString : Cell → String
  | .cstr s => s
  | .cnum q => toString q
  | .cbool b => if b then "True" else "False"
  | .cnull => "None"

/-- A parsed holdings document as `pd.DataFrame(json.load(f))` sees it: a
column is present or absent; `pd.DataFrame` construction (inside the
`try`) guarantees all present columns have one common length. -/
structure RawDoc where
  ticker : Option (List Cell)
  quantity : Option (List Cell)
  costBasis : Option (List Cell)
  notes : Option (List Cell)
  deriving DecidableEq, Repr

/-- `DEFAULT_TICKERS` (app.py lines 40-53). -/
def DEFAULT_TICKERS : List String :=
  ["NDQ.AX", "VGS.AX", "A200.AX", "FANG.AX",
   "CRYP.AX", "HACK.AX", "ROBO.AX",
   "GGUS.AX", "GEAR.AX",
   "ZIP.AX", "BNR.AX", "IVZ.AX",
   "BTC-USD", "ETH-USD",
   "EBTC.AX", "ETHT.AX"]

/-- The fallback DataFrame built in the `except` branch of `load_holdings`
(app.py lines 64-69): the default tickers with zero quantity and cost and
empty notes. -/
def defaultRawDoc : RawDoc :=
  { ticker := some (DEFAULT_TICKERS.map Cell.cstr),
    quantity := some (List.replicate DEFAULT_TICKERS.length (Cell.cnum 0)),
    costBasis := some (List.replicate DEFAULT_TICKERS.length (Cell.cnum 0)),
    notes := some (List.replicate DEFAULT_TICKERS.length (Cell.cstr "")) }

/-- The holdings DataFrame `load_holdings` returns: tickers coerced to
strings, numeric columns coerced with unparsable cells as 0.0, notes kept
as loaded (they are not coerced by lines 70-74). -/
structure HoldingsFrame where
  ticker : List String
  quantity : List ℚ
  costBasis : List ℚ
  notes : List Cell
  deriving DecidableEq, Repr

/-- Lines 70-74 of app.py, run on whichever DataFrame the `try` produced.
`df["Quantity"]` (line 70), `df["CostBasis_AUD"]` (line 71) and
`df["Ticker"]` (line 72) raise `KeyError` when the column is absent — these
lines are outside the `try`, so the error propagates to the caller.  Only a
missing `Notes` column is defaulted (lines 73-74), to the empty string
broadcast over the length of the frame. -/
def coerceHoldings (d : RawDoc) : Except String HoldingsFrame :=
  match d.quantity with
  | none => .error "KeyError: Quantity"
  | some qs =>
    match d.costBasis with
    | none => .error "KeyError: CostBasis_AUD"
    | some cs =>
      match d.ticker with
      | none => .error "KeyError: Ticker"
      | some ts =>
        .ok { ticker := ts.map cellToString,
              quantity := qs.map (fun c => (toNumericCoerce c).getD 0),
              costBasis := cs.map (fun c => (toNumericCoerce c).getD 0),
              notes :=
                match d.notes with
                | some ns => ns
                | none => List.replicate ts.length (Cell.cstr "") }

/-- `load_holdings` (app.py lines 58-75).  `doc = none` models the `try`
failing (file missing, unreadable JSON, or ragged columns rejected by
`pd.DataFrame`), which selects the default frame; either way the coercion
lines 70-74 then run. -/
def load_holdings (doc : Option RawDoc) : Except String HoldingsFrame :=
  coerceHoldings (doc.getD defaultRawDoc)

/-- A serialized JSON token,  as `json.dump` (with its default
`allow_nan=True`) writes one cell: non-finite float64 values are written as
the bare literals `NaN`, `Infinity` and `-Infinity` — not as `null`. -/
inductive JTok where
  | jnum (q : ℚ)
  | jnanLit
  | jinfLit
  | jninfLit
  | jstr (s : String)
  | jnull
  deriving DecidableEq, Repr

/-- How `json.dump` serializes one float64 cell. -/
def serializeCell : PVal → JTok
  | .num q => .jnum q
  | .nan => .jnanLit
  | .inf => .jinfLit
  | .ninf => .jninfLit

/-- The record-of-arrays document the export writes: one array per column,
aligned by row index. -/
structure ExportDoc where
  ticker : List JTok
  quantity : List JTok
  costBasis : List JTok
  notes : List JTok
  deriving DecidableEq, Repr

/-- `save_holdings` (app.py lines 77-80): `df.to_dict(orient="list")`
builds the record-of-arrays document from every row of the frame, and
`json.dump` (default `allow_nan=True`) serializes each cell; no row is
filtered out and no non-finite value is replaced. -/
def save_holdings (hs : List Holding) : ExportDoc :=
  { ticker := hs.map (fun h => JTok.jstr h.ticker),
    quantity := hs.map (fun h => serializeCell h.quantity),
    costBasis := hs.map (fun h => serializeCell h.costBasis),
    notes := hs.map (fun h => JTok.jstr h.notes) }

/-! ## Shared lemmas -/

@[simp] theorem PVal.isna_eq_true_iff (x : PVal) : x.isna = true ↔ x = .nan := by
  cases x <;> simp [PVal.isna]

@[simp] theorem PVal.nan_add (x : PVal) : PVal.nan.add x = .nan := by
  cases x <;> rfl

@[simp] theorem PVal.add_nan (x : PVal) : x.add .nan = .nan := by
  cases x <;> rfl

@[simp] theorem PVal.nan_sub (x : PVal) : PVal.nan.sub x = .nan := by
  cases x <;> rfl

@[simp] theorem PVal.sub_nan (x : PVal) : x.sub .nan = .nan := by
  cases x <;> rfl

@[simp] theorem PVal.nan_mul (x : PVal) : PVal.nan.mul x = .nan := by
  cases x <;> rfl

@[simp] theorem PVal.mul_nan (x : PVal) : x.mul .nan = .nan := by
  cases x <;> rfl

@[simp] theorem PVal.nan_div (x : PVal) : PVal.nan.div x = .nan := by
  cases x <;> rfl

@[simp] theorem PVal.div_nan (x : PVal) : x.div .nan = .nan := by
  cases x <;> rfl

theorem sumSkipNa_append_cons (l1 l2 : List PVal) (x : PVal)
    (hx : x.isna = true) :
    sumSkipNa (l1 ++ x :: l2) = sumSkipNa (l1 ++ l2) := by
  have hx2 : x = .nan := by simpa using hx
  subst hx2
  simp [sumSkipNa, List.foldl_append]

theorem sumSkipNa_map_middle {α : Type} (f : α → PVal) (l1 l2 : List α)
    (r : α) (hr : (f r).isna = true) :
    sumSkipNa ((l1 ++ r :: l2).map f) = sumSkipNa ((l1 ++ l2).map f) := by
  rw [List.map_append, List.map_cons, sumSkipNa_append_cons _ _ _ hr,
    ← List.map_append]

theorem filter_ticker_len_le_one (Q : List Quote)
    (hu : (Q.map Quote.ticker).Nodup) (tk : String) :
    (Q.filter (fun q => q.ticker == tk)).length ≤ 1 := by
  induction Q with
  | nil => simp
  | cons q Q ih =>
    simp only [List.map_cons, List.nodup_cons] at hu
    by_cases hq : q.ticker == tk
    · have hQ : Q.filter (fun r => r.ticker == tk) = [] := by
        rw [List.filter_eq_nil_iff]
        intro r hr hpr
        simp only [beq_iff_eq] at hpr hq
        exact hu.1 (List.mem_map.mpr ⟨r, hr, hpr.trans hq.symm⟩)
      simp [List.filter_cons, hq, hQ]
    · simpa [List.filter_cons, hq] using ih hu.2

theorem mergeRow_len_fst (Q : List Quote)
    (hu : (Q.map Quote.ticker).Nodup) (h : Holding) :
    (mergeRow Q h).length = 1 ∧ (mergeRow Q h).map Prod.fst = [h] := by
  have hle := filter_ticker_len_le_one Q hu h.ticker
  rcases e : Q.filter (fun q => q.ticker == h.ticker) with _ | ⟨q, rest⟩
  · simp [mergeRow, e]
  · rw [e] at hle
    have hrest : rest = [] := by
      cases rest with
      | nil => rfl
      | cons a t => simp at hle
    subst hrest
    simp [mergeRow, e]

/-! ## C1: join completeness and order preservation -/

/-- C1: for every holdings sequence and every quotes table with pairwise
distinct tickers, the left merge of `compute_portfolio` yields exactly one
row per holdings row — none dropped, even unmatched ones — and the holdings
rows appear in the output in their input order. -/
theorem merge_quotes_complete (H : List Holding) (Q : List Quote)
    (hu : (Q.map Quote.ticker).Nodup) :
    (merge_quotes H Q).length = H.length ∧
    (merge_quotes H Q).map Prod.fst = H := by
  induction H with
  | nil => simp [merge_quotes]
  | cons h H ih =>
    obtain ⟨hlen, hfst⟩ := mergeRow_len_fst Q hu h
    obtain ⟨ihlen, ihfst⟩ := ih
    have e : merge_quotes (h :: H) Q = mergeRow Q h ++ merge_quotes H Q := by
      simp [merge_quotes, List.flatMap_cons]
    rw [e]
    constructor
    · simp only [List.length_append, List.length_cons, hlen, ihlen]
      omega
    · simp [List.map_append, hfst, ihfst]

/-- Witness for C1 at a concrete two-position portfolio with one matched
and one unmatched ticker. -/
theorem merge_quotes_complete_witness :
    ([Quote.mk "VGS.AX" (.num 9) (.num 8) (.num 8) none].map
        Quote.ticker).Nodup ∧
    (merge_quotes
        [Holding.mk "NDQ.AX" (.num 2) (.num 1) "",
         Holding.mk "VGS.AX" (.num 3) (.num 1) ""]
        [Quote.mk "VGS.AX" (.num 9) (.num 8) (.num 8) none]).length = 2 ∧
    (merge_quotes
        [Holding.mk "NDQ.AX" (.num 2) (.num 1) "",
         Holding.mk "VGS.AX" (.num 3) (.num 1) ""]
        [Quote.mk "VGS.AX" (.num 9) (.num 8) (.num 8) none]).map Prod.fst =
      [Holding.mk "NDQ.AX" (.num 2) (.num 1) "",
       Holding.mk "VGS.AX" (.num 3) (.num 1) ""] := by
  refine ⟨by decide, ?_⟩
  exact merge_quotes_complete _ _ (by decide)

/-! ## C2: currency conversion -/

/-- C2: `to_aud` returns `price / fx_rate` for a present price with
currency exactly `"USD"` and a nonzero rate, returns the price unchanged
for any other currency (including a missing one), and returns NaN when the
price is absent. -/
theorem to_aud_correct (p r : ℚ) (price : PVal) (cur : Option String)
    (hr : r ≠ 0) :
    to_aud .nan cur (.num r) = .nan ∧
    to_aud (.num p) (some "USD") (.num r) = .num (p / r) ∧
    (price.isna = false → cur ≠ some "USD" →
      to_aud price cur (.num r) = price) := by
  refine ⟨rfl, ?_, ?_⟩
  · simp [to_aud, PVal.isna, PVal.div, hr]
  · intro hp hc
    simp [to_aud, hp, hc]

/-- Witness for C2 with the second scenario of the spec: a USD price of 8 at
rate 0.5 converts to 16; an AUD price passes through; a NaN price stays
NaN. -/
theorem to_aud_correct_witness :
    to_aud .nan (some "AUD") (.num (1 / 2)) = .nan ∧
    to_aud (.num 8) (some "USD") (.num (1 / 2)) = .num (8 / (1 / 2)) ∧
    to_aud (.num 8) (some "AUD") (.num (1 / 2)) = .num 8 := by
  have h := to_aud_correct 8 (1 / 2) (.num 8) (some "AUD") (by norm_num)
  exact ⟨h.1, h.2.1, h.2.2 rfl (by simp)⟩

/-! Evaluation lemmas for the embedded float64 arithmetic on finite values
(the `Rat` operations are irreducible, so concrete computations go through
`simp`/`norm_num` with these). -/

@[simp] theorem PVal.num_add_num (a b : ℚ) :
    (PVal.num a).add (.num b) = .num (a + b) := rfl

@[simp] theorem PVal.num_sub_num (a b : ℚ) :
    (PVal.num a).sub (.num b) = .num (a - b) := by
  simp [PVal.sub, PVal.neg, PVal.add, sub_eq_add_neg]

@[simp] theorem PVal.num_mul_num (a b : ℚ) :
    (PVal.num a).mul (.num b) = .num (a * b) := rfl

@[simp] theorem PVal.num_div_num (a b : ℚ) (h : b ≠ 0) :
    (PVal.num a).div (.num b) = .num (a / b) := by
  simp [PVal.div, h]

@[simp] theorem PVal.num_div_zero (a : ℚ) :
    (PVal.num a).div (.num 0) =
      (if 0 < a then .inf else if a < 0 then .ninf else .nan) := by
  simp [PVal.div]

@[simp] theorem PVal.inf_sub_num (b : ℚ) :
    PVal.inf.sub (.num b) = .inf := rfl

@[simp] theorem PVal.ninf_sub_num (b : ℚ) :
    PVal.ninf.sub (.num b) = .ninf := rfl

@[simp] theorem PVal.inf_mul_num (b : ℚ) (h : 0 < b) :
    PVal.inf.mul (.num b) = .inf := by
  simp [PVal.mul, h]

@[simp] theorem PVal.ninf_mul_num (b : ℚ) (h : 0 < b) :
    PVal.ninf.mul (.num b) = .ninf := by
  simp [PVal.mul, h]

@[simp] theorem PVal.num_mul_inf (a : ℚ) (h : 0 < a) :
    (PVal.num a).mul .inf = .inf := by
  simp [PVal.mul, h]

@[simp] theorem PVal.inf_div_num (b : ℚ) (h : 0 ≤ b) :
    PVal.inf.div (.num b) = .inf := by
  simp [PVal.div, not_lt.mpr h]

@[simp] theorem PVal.num_add_inf (a : ℚ) :
    (PVal.num a).add .inf = .inf := rfl

@[simp] theorem to_aud_none_cur (price a : PVal) (h : price.isna = false) :
    to_aud price none a = price := by
  simp [to_aud, h]

/-! ## C3: division by zero in the intraday percentage -/

/-- C3 counterexample: a present price of 8 with a previous close of
exactly 0 makes line 153 produce +Infinity, not an absent value, and the
infinity propagates into the intraday-move aggregate (line 228) of a
one-position portfolio with nonzero quantity. -/
theorem intraday_pct_zero_counterexample :
    intraday_pct (.num 8) (.num 0) = .inf ∧
    (intraday_pct (.num 8) (.num 0)).isna = false ∧
    intraday_mv
      (compute_portfolio
        [Holding.mk "AAA" (.num 10) (.num 5) ""]
        [Quote.mk "AAA" (.num 8) (.num 0) (.num 8) none]
        none (fun _ => none)) = .inf := by
  refine ⟨?_, ?_, ?_⟩ <;>
    norm_num [intraday_pct, intraday_mv, compute_portfolio, merge_quotes,
      mergeRow, enrichRow, emptyQuote, fetch_hourly_change,
      get_audusd, sumSkipNa, PVal.isna, List.filter]

/-- C3 amended: when price and previous close are present, the intraday
percentage is `(price/prev_close - 1) * 100` for a nonzero previous close;
a previous close of exactly 0 does not raise, but yields +Infinity for a
positive price and -Infinity for a negative one (NaN only when the price
is also 0), and that infinity is propagated downstream. -/
theorem intraday_pct_characterization (p c : ℚ) :
    (c ≠ 0 → intraday_pct (.num p) (.num c) = .num ((p / c - 1) * 100)) ∧
    intraday_pct (.num p) (.num 0) =
      (if 0 < p then .inf else if p < 0 then .ninf else .nan) := by
  constructor
  · intro hc
    simp [intraday_pct, hc]
  · rcases lt_trichotomy 0 p with hp | hp | hp
    · simp [intraday_pct, hp]
    · simp [intraday_pct, ← hp]
    · simp [intraday_pct, hp, not_lt.mpr (le_of_lt hp), asymm hp]

/-- Witness for the amended C3 statement: the spec scenario price 8 with
previous close 7.5 gives 20/3 percent, and price 8 with previous close 0
gives +Infinity. -/
theorem intraday_pct_characterization_witness :
    intraday_pct (.num 8) (.num (15 / 2)) = .num (20 / 3) ∧
    intraday_pct (.num 8) (.num 0) = .inf := by
  have h := intraday_pct_characterization 8 (15 / 2)
  constructor
  · rw [h.1 (by norm_num)]
    norm_num
  · rw [h.2]
    norm_num

/-! ## C4: aggregation skips absent values -/

/-- C4: the four portfolio totals only sum present values: a row whose
market value is NaN contributes nothing to the market-value total nor to
the two percentage-weighted move totals, a row whose cost is NaN
contributes nothing to the cost total, and a row whose intraday (resp.
hourly) percentage is NaN contributes nothing to the intraday (resp.
hourly) move total — removing such a row leaves the corresponding total
unchanged, so an absent value is never a zero-contribution. -/
theorem aggregate_excludes_absent (l1 l2 : List Enriched) (r : Enriched) :
    (r.marketValueAUD.isna = true →
      total_mv (l1 ++ r :: l2) = total_mv (l1 ++ l2) ∧
      intraday_mv (l1 ++ r :: l2) = intraday_mv (l1 ++ l2) ∧
      hour_mv (l1 ++ r :: l2) = hour_mv (l1 ++ l2)) ∧
    (r.costAUD.isna = true →
      total_cost (l1 ++ r :: l2) = total_cost (l1 ++ l2)) ∧
    (r.intradayPct.isna = true →
      intraday_mv (l1 ++ r :: l2) = intraday_mv (l1 ++ l2)) ∧
    (r.hourPct.isna = true →
      hour_mv (l1 ++ r :: l2) = hour_mv (l1 ++ l2)) := by
  refine ⟨fun hmv => ⟨?_, ?_, ?_⟩, fun hc => ?_, fun hi => ?_, fun hh => ?_⟩
  · exact sumSkipNa_map_middle _ l1 l2 r hmv
  · refine sumSkipNa_map_middle _ l1 l2 r ?_
    have : r.marketValueAUD = .nan := by simpa using hmv
    simp [this]
  · refine sumSkipNa_map_middle _ l1 l2 r ?_
    have : r.marketValueAUD = .nan := by simpa using hmv
    simp [this]
  · exact sumSkipNa_map_middle _ l1 l2 r hc
  · refine sumSkipNa_map_middle _ l1 l2 r ?_
    have : r.intradayPct = .nan := by simpa using hi
    simp [this]
  · refine sumSkipNa_map_middle _ l1 l2 r ?_
    have : r.hourPct = .nan := by simpa using hh
    simp [this]

/-- Witness for C4: inserting an all-NaN row into a concrete one-row
portfolio changes none of the four totals. -/
theorem aggregate_excludes_absent_witness :
    total_mv
        [Enriched.mk "AAA" (.num 10) (.num 5) "" (.num 8) (.num 8) (.num 8)
          none (.num 8) (.num 80) (.num 50) (.num 30) (.num 1) (.num 2),
         Enriched.mk "BBB" .nan .nan "" .nan .nan .nan none .nan .nan .nan
          .nan .nan .nan] =
      total_mv
        [Enriched.mk "AAA" (.num 10) (.num 5) "" (.num 8) (.num 8) (.num 8)
          none (.num 8) (.num 80) (.num 50) (.num 30) (.num 1) (.num 2)] ∧
    intraday_mv
        [Enriched.mk "AAA" (.num 10) (.num 5) "" (.num 8) (.num 8) (.num 8)
          none (.num 8) (.num 80) (.num 50) (.num 30) (.num 1) (.num 2),
         Enriched.mk "BBB" .nan .nan "" .nan .nan .nan none .nan .nan .nan
          .nan .nan .nan] =
      intraday_mv
        [Enriched.mk "AAA" (.num 10) (.num 5) "" (.num 8) (.num 8) (.num 8)
          none (.num 8) (.num 80) (.num 50) (.num 30) (.num 1) (.num 2)] ∧
    total_cost
        [Enriched.mk "AAA" (.num 10) (.num 5) "" (.num 8) (.num 8) (.num 8)
          none (.num 8) (.num 80) (.num 50) (.num 30) (.num 1) (.num 2),
         Enriched.mk "BBB" .nan .nan "" .nan .nan .nan none .nan .nan .nan
          .nan .nan .nan] =
      total_cost
        [Enriched.mk "AAA" (.num 10) (.num 5) "" (.num 8) (.num 8) (.num 8)
          none (.num 8) (.num 80) (.num 50) (.num 30) (.num 1) (.num 2)] := by
  have h := aggregate_excludes_absent
    [Enriched.mk "AAA" (.num 10) (.num 5) "" (.num 8) (.num 8) (.num 8)
      none (.num 8) (.num 80) (.num 50) (.num 30) (.num 1) (.num 2)] []
    (Enriched.mk "BBB" .nan .nan "" .nan .nan .nan none .nan .nan .nan
      .nan .nan .nan)
  exact ⟨(h.1 rfl).1, (h.1 rfl).2.1, h.2.1 rfl⟩

/-! ## C5: absent price propagates to every derived field -/

/-- C5: in any `compute_portfolio` output row whose quote price is absent,
`Price_AUD`, `MarketValue_AUD`, `Unrealised_PnL_AUD` and `Intraday_%` are
all absent — missing-ness propagates and is never replaced by zero. -/
theorem absent_price_propagates (holdings : List Holding)
    (quotes : List Quote) (fx : Option (List ℚ))
    (bars : String → Option (List PVal)) (row : Enriched)
    (hmem : row ∈ compute_portfolio holdings quotes fx bars)
    (hp : row.price.isna = true) :
    row.priceAUD = .nan ∧ row.marketValueAUD = .nan ∧
    row.unrealisedPnlAUD = .nan ∧ row.intradayPct = .nan := by
  obtain ⟨hq, _, rfl⟩ := List.mem_map.mp hmem
  have hqp : hq.2.price = .nan := by
    simpa [enrichRow] using hp
  simp [enrichRow, to_aud, intraday_pct, hqp, PVal.isna]

/-- Witness for C5: a holding whose ticker is missing from the quotes
table gets an all-NaN quote, and all four derived fields are NaN. -/
theorem absent_price_propagates_witness :
    (enrichRow (Holding.mk "ZZZ.AX" .nan .nan "") (emptyQuote "ZZZ.AX")
        (get_audusd none) (fetch_hourly_change none)).priceAUD = .nan ∧
    (enrichRow (Holding.mk "ZZZ.AX" .nan .nan "") (emptyQuote "ZZZ.AX")
        (get_audusd none) (fetch_hourly_change none)).marketValueAUD = .nan ∧
    (enrichRow (Holding.mk "ZZZ.AX" .nan .nan "") (emptyQuote "ZZZ.AX")
        (get_audusd none) (fetch_hourly_change none)).unrealisedPnlAUD
      = .nan ∧
    (enrichRow (Holding.mk "ZZZ.AX" .nan .nan "") (emptyQuote "ZZZ.AX")
        (get_audusd none) (fetch_hourly_change none)).intradayPct = .nan :=
  absent_price_propagates [Holding.mk "ZZZ.AX" .nan .nan ""] [] none
    (fun _ => none) _ (List.mem_singleton.mpr rfl) rfl

/-! ## C6: FX fallback and one rate per pass -/

/-- C6: `get_audusd` falls back to the hardcoded 0.67 when its download
fails (and when the series after dropna is empty), and `compute_portfolio`
fetches that rate once: the `Price_AUD` of every output row is obtained by
converting with the very same `get_audusd fx` value. -/
theorem get_audusd_fallback_uniform (holdings : List Holding)
    (quotes : List Quote) (fx : Option (List ℚ))
    (bars : String → Option (List PVal)) :
    get_audusd none = 67 / 100 ∧
    get_audusd (some []) = 67 / 100 ∧
    ∀ row ∈ compute_portfolio holdings quotes fx bars,
      row.priceAUD = to_aud row.price row.currency (.num (get_audusd fx)) := by
  refine ⟨rfl, rfl, ?_⟩
  intro row hmem
  obtain ⟨hq, _, rfl⟩ := List.mem_map.mp hmem
  rfl

/-- Witness for C6 at a one-position USD portfolio whose FX download
returned a 0.5 close. -/
theorem get_audusd_fallback_uniform_witness :
    get_audusd none = 67 / 100 ∧
    (enrichRow (Holding.mk "BTC-USD" .nan .nan "")
        (Quote.mk "BTC-USD" (.num 8) .nan .nan (some "AUD"))
        (get_audusd (some [1 / 2])) (fetch_hourly_change none)).priceAUD =
      to_aud (.num 8) (some "AUD") (.num (get_audusd (some [1 / 2]))) := by
  have h := get_audusd_fallback_uniform [Holding.mk "BTC-USD" .nan .nan ""]
    [Quote.mk "BTC-USD" (.num 8) .nan .nan (some "AUD")] (some [1 / 2])
    (fun _ => none)
  exact ⟨h.1, h.2.2 _ (by decide)⟩

/-! ## C7: the load boundary -/

/-- C7 counterexample: a document that parses fine but lacks the
`Quantity` column (for example `{"Ticker": ["AAA"]}`) is not filled with
defaults — `df["Quantity"]` on line 70 raises a `KeyError` outside the
`try`, so `load_holdings` fails instead of returning a holdings frame. -/
theorem load_holdings_missing_column_counterexample :
    load_holdings
        (some (RawDoc.mk (some [Cell.cstr "AAA"]) none none none)) =
      .error "KeyError: Quantity" := rfl

/-- C7 amended: `load_holdings` returns the fixed default position set
when the store is unavailable or the document unreadable; for a loaded
document that does contain the `Ticker`, `Quantity` and `CostBasis_AUD`
columns, unparsable numeric cells coerce to 0.0, a missing `Notes` column
defaults to empty strings, and tickers are coerced to strings; but a
loaded document missing any of those three columns makes `load_holdings`
raise a `KeyError` instead of filling defaults. -/
theorem load_holdings_characterization (d : RawDoc) (ts qs cs : List Cell)
    (ht : d.ticker = some ts) (hq : d.quantity = some qs)
    (hc : d.costBasis = some cs) :
    load_holdings none = .ok
      { ticker := DEFAULT_TICKERS,
        quantity := List.replicate DEFAULT_TICKERS.length 0,
        costBasis := List.replicate DEFAULT_TICKERS.length 0,
        notes := List.replicate DEFAULT_TICKERS.length (Cell.cstr "") } ∧
    load_holdings (some d) = .ok
      { ticker := ts.map cellToString,
        quantity := qs.map (fun c => (toNumericCoerce c).getD 0),
        costBasis := cs.map (fun c => (toNumericCoerce c).getD 0),
        notes := d.notes.getD (List.replicate ts.length (Cell.cstr "")) } ∧
    (∀ d2 : RawDoc,
      d2.quantity = none ∨ d2.costBasis = none ∨ d2.ticker = none →
      ∃ e, load_holdings (some d2) = .error e) := by
  refine ⟨rfl, ?_, ?_⟩
  · simp only [load_holdings, Option.getD, coerceHoldings, ht, hq, hc]
    cases hn : d.notes <;> simp [hn]
  · intro d2 hd2
    rcases e1 : d2.quantity with _ | qs2
    · exact ⟨"KeyError: Quantity", by simp [load_holdings, coerceHoldings, e1]⟩
    · rcases e2 : d2.costBasis with _ | cs2
      · exact ⟨"KeyError: CostBasis_AUD",
          by simp [load_holdings, coerceHoldings, e1, e2]⟩
      · rcases e3 : d2.ticker with _ | ts2
        · exact ⟨"KeyError: Ticker",
            by simp [load_holdings, coerceHoldings, e1, e2, e3]⟩
        · rcases hd2 with h | h | h <;> simp_all

/-- Witness for the amended C7: loading a document with an unparsable
quantity string, a numeric cost and no `Notes` column yields the coerced
frame — quantity 0, notes defaulted to the empty string. -/
theorem load_holdings_characterization_witness :
    load_holdings
        (some (RawDoc.mk (some [Cell.cstr "AAA"]) (some [Cell.cstr "abc"])
          (some [Cell.cnum 2]) none)) =
      .ok (HoldingsFrame.mk ["AAA"] [0] [2] [Cell.cstr ""]) := by
  have h := load_holdings_characterization
    (RawDoc.mk (some [Cell.cstr "AAA"]) (some [Cell.cstr "abc"])
      (some [Cell.cnum 2]) none)
    [Cell.cstr "AAA"] [Cell.cstr "abc"] [Cell.cnum 2] rfl rfl rfl
  exact h.2.1

/-! ## C8: the export boundary -/

/-- C8 counterexample: exporting a one-row holdings set whose ticker is
empty and whose numeric cells are NaN and +Infinity keeps the row and
writes the `NaN` / `Infinity` literals of `json.dump`, not a null
marker. -/
theorem save_holdings_counterexample :
    (save_holdings [Holding.mk "" .nan .inf ""]).ticker = [.jstr ""] ∧
    (save_holdings [Holding.mk "" .nan .inf ""]).quantity = [.jnanLit] ∧
    (save_holdings [Holding.mk "" .nan .inf ""]).costBasis = [.jinfLit] ∧
    (save_holdings [Holding.mk "" .nan .inf ""]).quantity ≠ [.jnull] := by
  decide

/-- C8 amended: the export produces the record-of-arrays shape with one
entry per holdings row in order — rows with an empty or missing ticker are
NOT excluded — and `json.dump` (default `allow_nan=True`) writes
non-finite numerics as the `NaN`/`Infinity`/`-Infinity` literals, not as
a null/absent marker. -/
theorem save_holdings_characterization (hs : List Holding) (i : ℕ) :
    (save_holdings hs).ticker.length = hs.length ∧
    (save_holdings hs).quantity.length = hs.length ∧
    (save_holdings hs).costBasis.length = hs.length ∧
    (save_holdings hs).notes.length = hs.length ∧
    (save_holdings hs).ticker.get? i =
      (hs.get? i).map (fun h => JTok.jstr h.ticker) ∧
    (save_holdings hs).quantity.get? i =
      (hs.get? i).map (fun h => serializeCell h.quantity) ∧
    (save_holdings hs).costBasis.get? i =
      (hs.get? i).map (fun h => serializeCell h.costBasis) ∧
    serializeCell .nan = .jnanLit ∧
    serializeCell .inf = .jinfLit ∧
    serializeCell .ninf = .jninfLit := by
  refine ⟨?_, ?_, ?_, ?_, ?_, ?_, ?_, rfl, rfl, rfl⟩ <;>
    simp [save_holdings, List.get?_eq_getElem?, List.getElem?_map]

/-! ## C9: the hourly change -/

/-- C9: `fetch_hourly_change` works on the 6-hour window of 1-hour bars it
downloaded (app.py lines 112-114) and returns the percent change of the
last close against the one before it; a failed download, fewer than 2
bars, or a zero or absent prior close all give NaN — the `try/except`
swallows every error, so nothing is raised to the caller. -/
theorem fetch_hourly_change_correct (closes : List PVal)
    (last prev : PVal) (rest : List PVal)
    (hrev : closes.reverse = last :: prev :: rest) :
    fetch_hourly_change none = .nan ∧
    (∀ cs : List PVal, cs.length < 2 →
      fetch_hourly_change (some cs) = .nan) ∧
    (prev = .num 0 → fetch_hourly_change (some closes) = .nan) ∧
    (prev = .nan → fetch_hourly_change (some closes) = .nan) ∧
    (∀ p : ℚ, p ≠ 0 → prev = .num p →
      fetch_hourly_change (some closes) =
        ((last.div prev).sub (.num 1)).mul (.num 100)) := by
  refine ⟨rfl, ?_, ?_, ?_, ?_⟩
  · intro cs hcs
    rcases cs with _ | ⟨a, _ | ⟨b, t⟩⟩
    · rfl
    · rfl
    · simp at hcs
      omega
  · intro h0
    subst h0
    simp [fetch_hourly_change, hrev, PVal.truthy]
  · intro hn
    subst hn
    simp [fetch_hourly_change, hrev, PVal.truthy, PVal.neZero]
  · intro p hp hprev
    subst hprev
    simp [fetch_hourly_change, hrev, PVal.truthy, PVal.neZero, hp]

/-- Witness for C9: a failed fetch, a one-bar window, a zero prior close
and a real two-bar window (4 then 5 gives +25%). -/
theorem fetch_hourly_change_correct_witness :
    fetch_hourly_change none = .nan ∧
    fetch_hourly_change (some [.num 5]) = .nan ∧
    fetch_hourly_change (some [.num 0, .num 5]) = .nan ∧
    fetch_hourly_change (some [.nan, .num 5]) = .nan ∧
    fetch_hourly_change (some [.num 4, .num 5]) = .num 25 := by
  have h := fetch_hourly_change_correct [.num 4, .num 5] (.num 5) (.num 4)
    [] rfl
  have h0 := fetch_hourly_change_correct [.num 0, .num 5] (.num 5) (.num 0)
    [] rfl
  have hn := fetch_hourly_change_correct [.nan, .num 5] (.num 5) .nan
    [] rfl
  refine ⟨h.1, h.2.1 [.num 5] (by norm_num), h0.2.2.1 rfl,
    hn.2.2.2.1 rfl, ?_⟩
  rw [h.2.2.2.2 4 (by norm_num) rfl]
  norm_num

/-! ## C10: a zero FX rate does not raise, it produces Infinity -/

/-- C10 counterexample: with a present USD price of 8 and an FX rate of
exactly 0, `to_aud` does not raise and does not abort the pass — the
operands are numpy float64 scalars, whose zero-division yields Infinity
with only a `RuntimeWarning` — and the whole `compute_portfolio` pass
still returns its row, carrying `Price_AUD = +Infinity` (which is not
absent either). -/
theorem usd_zero_fx_counterexample :
    to_aud (.num 8) (some "USD") (.num 0) = .inf ∧
    (to_aud (.num 8) (some "USD") (.num 0)).isna = false ∧
    (compute_portfolio [Holding.mk "BTC-USD" .nan .nan ""]
        [Quote.mk "BTC-USD" (.num 8) .nan .nan (some "USD")]
        (some [0]) (fun _ => none)).map Enriched.priceAUD = [.inf] := by
  decide

/-- C10 amended: with an FX rate of exactly 0, converting a present USD
price performs an IEEE float64 division — no exception, no aborted pass —
and yields +Infinity for a positive price, -Infinity for a negative one,
and NaN only for a zero price; the result is infinite rather than
absent. -/
theorem to_aud_zero_fx (p : ℚ) :
    to_aud (.num p) (some "USD") (.num 0) =
      (if 0 < p then .inf else if p < 0 then .ninf else .nan) := by
  simp [to_aud, PVal.isna]
